import Mathlib

/-!
# Verification of the DOME onboarding service core

A shallow embedding, in Lean 4, of the registration orchestration and
credential issuance workflow of the onboarding service (Go sources:
`internal/server/handlers.go`, `internal/server/server.go`, the
`credissuance` package, the `internal/db` package and `common/countries.go`).

Conventions of the embedding:
* machine integers become `Nat`;
* `time.Time` values become `Nat` (seconds); `3*time.Minute` is `180`,
  `15*time.Minute` is `900`;
* Go maps become association lists with at most one binding per key,
  manipulated through `mapGet` / `mapSet` / `mapDel`;
* Go `error` results become `Option String` (`none` = nil error) or
  `Except String α`;
* I/O effects of a handler (database calls, issuance call, mails) are
  recorded in an event trace, and the outcome of each external call is an
  explicit oracle argument of the handler;
* JSON documents become the inductive `Json` below; Go `encoding/json`
  marshalling of the `credissuance` structures (with their `omitempty`
  tags and the custom `Strings.MarshalJSON`) is embedded field by field.
-/

namespace Onboarding

/-! ## Association-list maps (embedding of Go maps) -/

def mapGet {β : Type} (m : List (String × β)) (k : String) : Option β :=
  (m.find? (fun p => p.1 = k)).map (fun p => p.2)

def mapSet {β : Type} (m : List (String × β)) (k : String) (v : β) :
    List (String × β) :=
  if m.any (fun p => p.1 = k) then
    m.map (fun p => if p.1 = k then (k, v) else p)
  else
    (k, v) :: m

def mapDel {β : Type} (m : List (String × β)) (k : String) :
    List (String × β) :=
  m.filter (fun p => ¬ (p.1 = k))

/-! ## Countries (`common/countries.go`) -/

structure Country where
  code : String
  name : String
deriving Repr, DecidableEq

def Countries : List Country :=
  [⟨"US", "United States"⟩, ⟨"GB", "United Kingdom"⟩, ⟨"CA", "Canada"⟩,
   ⟨"AU", "Australia"⟩, ⟨"DE", "Germany"⟩, ⟨"FR", "France"⟩,
   ⟨"ES", "Spain"⟩, ⟨"IT", "Italy"⟩, ⟨"NL", "Netherlands"⟩,
   ⟨"BE", "Belgium"⟩, ⟨"CH", "Switzerland"⟩, ⟨"AT", "Austria"⟩,
   ⟨"SE", "Sweden"⟩, ⟨"NO", "Norway"⟩, ⟨"DK", "Denmark"⟩,
   ⟨"FI", "Finland"⟩, ⟨"IE", "Ireland"⟩, ⟨"PT", "Portugal"⟩,
   ⟨"GR", "Greece"⟩, ⟨"LU", "Luxembourg"⟩, ⟨"JP", "Japan"⟩,
   ⟨"CN", "China"⟩, ⟨"IN", "India"⟩, ⟨"BR", "Brazil"⟩,
   ⟨"MX", "Mexico"⟩, ⟨"ZA", "South Africa"⟩,
   ⟨"AE", "United Arab Emirates"⟩, ⟨"SG", "Singapore"⟩,
   ⟨"KR", "South Korea"⟩, ⟨"NZ", "New Zealand"⟩]

def IsValidCountry (code : String) : Bool :=
  Countries.any (fun c => c.code = code)

/-! ## Email validation (`handlers.go`, `isValidEmail`)

The Go code matches the lowercased address against the anchored regular
expression `^[a-z0-9._%+\-]+@[a-z0-9.\-]+\.[a-z]{2,}$`.  The embedding
checks the same language directly: exactly one `@`; a non-empty local part
over the local character class; after the `@`, a non-empty domain part over
the domain class, a dot, and a final label of at least two lowercase
letters.  Because the final label may contain no dot, a match, if any,
always splits at the last dot, which is what the embedding checks. -/

def isLowerAZ (c : Char) : Bool := decide ('a' ≤ c) && decide (c ≤ 'z')

def isDigit09 (c : Char) : Bool := decide ('0' ≤ c) && decide (c ≤ '9')

def isLocalChar (c : Char) : Bool :=
  isLowerAZ c || isDigit09 c || decide (c = '.') || decide (c = '_') ||
    decide (c = '%') || decide (c = '+') || decide (c = '-')

def isDomainChar (c : Char) : Bool :=
  isLowerAZ c || isDigit09 c || decide (c = '.') || decide (c = '-')

/-- Split a character list on every occurrence of `sep` (the list of
groups between separators, like Go's `strings.Split`). -/
def splitChar (sep : Char) : List Char → List (List Char)
  | [] => [[]]
  | c :: cs =>
    match splitChar sep cs with
    | [] => [[]]
    | g :: gs => if c = sep then [] :: g :: gs else (c :: g) :: gs

/-- Embedding of `isValidEmail`.  Lowercasing is per character; the
regular expression's character classes are ASCII-only, so a non-ASCII
letter is rejected whether or not it is lowercased first, as in Go. -/
def isValidEmail (email : String) : Bool :=
  let cs := email.data.map Char.toLower
  match splitChar '@' cs with
  | [lcs, rcs] =>
    let rev := rcs.reverse
    let tldRev := rev.takeWhile (fun c => !(decide (c = '.')))
    (!lcs.isEmpty) && lcs.all isLocalChar &&
      decide (2 ≤ tldRev.length) && tldRev.all isLowerAZ &&
      (match rev.drop tldRev.length with
       | '.' :: domRev => (!domRev.isEmpty) && domRev.all isDomainChar
       | _ => false)
  | _ => false

/-! ## Registration records (`internal/db`, struct `Registration`) -/

structure Registration where
  registrationID : String := ""
  email : String := ""
  firstName : String := ""
  lastName : String := ""
  companyName : String := ""
  country : String := ""
  vatID : String := ""
  createdAt : Nat := 0
  updatedAt : Nat := 0
  issuanceAt : Nat := 0
  issuanceError : String := ""
  notifEmailAt : Nat := 0
  notifEmailError : String := ""
deriving Repr, DecidableEq

/-! ## Registration request (`handlers.go`, struct `RegistrationRequest`) -/

structure RegistrationRequest where
  firstName : String
  lastName : String
  companyName : String
  country : String
  vatId : String
  email : String
  website : String
deriving Repr, DecidableEq

/-- Embedding of `RegistrationRequest.Validate` from `handlers.go`:
the checks run in source order and the first failure wins. -/
def RegistrationRequest.validate (s : RegistrationRequest) :
    Except String Unit :=
  if s.firstName = "" then .error "first name is required"
  else if s.lastName = "" then .error "last name is required"
  else if s.companyName = "" then .error "company name is required"
  else if s.country = "" then .error "country is required"
  else if ¬ IsValidCountry s.country then .error "invalid country code"
  else if s.vatId = "" then .error "VAT ID is required"
  else if s.email = "" then .error "email is required"
  else if ¬ isValidEmail s.email then .error "invalid email address format"
  else .ok ()

/-! ## Credential issuance request structures (`credissuance` package) -/

/-- Embedding of `type Strings []string` (a named slice type, freely
convertible with `[]string` as in Go). -/
abbrev Strings := List String

structure Mandator where
  organizationIdentifier : String := ""
  organization : String := ""
  country : String := ""
  commonName : String := ""
  emailAddress : String := ""
  serialNumber : String := ""
deriving Repr, DecidableEq

structure Mandatee where
  firstName : String := ""
  lastName : String := ""
  nationality : String := ""
  email : String := ""
deriving Repr, DecidableEq

structure Power where
  type : String := ""
  domain : String := ""
  function : String := ""
  action : Strings := ([] : List String)
deriving Repr, DecidableEq

structure Payload where
  mandator : Mandator
  mandatee : Mandatee
  power : List Power
deriving Repr, DecidableEq

structure LEARIssuanceRequestBody where
  schema : String := ""
  operationMode : String := ""
  format : String := ""
  responseUri : String := ""
  payload : Payload
deriving Repr, DecidableEq

/-! ## JSON wire format of the issuance request (`credissuance`)

`encoding/json` marshalling of the `credissuance` structures is embedded
at the level of JSON trees (the textual layer — bytes, whitespace — is
not modelled; the wire format of this package only needs strings, arrays
and objects).  `omitempty` on a string omits the key when the string is
empty; on a slice, when the slice has length zero (checked by
reflection, before any custom `MarshalJSON` runs).  Struct-typed fields
without a custom marshaller (`payload`, `mandator`, `mandatee`) are
never omitted.  Unmarshalling into a struct treats a missing key as the
zero value and a present key of the wrong JSON type as an error; the
`Strings` type has no custom `UnmarshalJSON`, so it decodes only from a
JSON array of strings. -/

inductive Json where
  | str : String → Json
  | arr : List Json → Json
  | obj : List (String × Json) → Json
deriving Repr

/-- An empty JSON value: empty string, empty array or empty object. -/
def Json.isEmptyVal : Json → Bool
  | .str s => s = ""
  | .arr l => l.isEmpty
  | .obj l => l.isEmpty

/-- Whether somewhere in the document a key outside `allowed` is bound
to an empty value. -/
def Json.hasEmptyKeyExcept (allowed : List String) : Json → Bool
  | .str _ => false
  | .arr [] => false
  | .arr (j :: rest) =>
      Json.hasEmptyKeyExcept allowed j ||
        Json.hasEmptyKeyExcept allowed (.arr rest)
  | .obj [] => false
  | .obj ((k, v) :: rest) =>
      ((!allowed.contains k) && Json.isEmptyVal v) ||
        Json.hasEmptyKeyExcept allowed v ||
        Json.hasEmptyKeyExcept allowed (.obj rest)

/-- First binding of a key in an object (the documents produced by the
marshaller never contain duplicate keys). -/
def jlookup : List (String × Json) → String → Option Json
  | [], _ => none
  | (k, v) :: rest, key => if key = k then some v else jlookup rest key

/-- A string field with `omitempty`: no binding when the value is
empty. -/
def omitStr (k v : String) : List (String × Json) :=
  if v = "" then [] else [(k, Json.str v)]

/-- Embedding of the custom `Strings.MarshalJSON`: a single-element list
serializes as the bare string, anything else as an array. -/
def Strings.MarshalJSON (s : Strings) : Json :=
  match s with
  | [a] => Json.str a
  | _ => Json.arr (s.map Json.str)

def marshalPower (p : Power) : Json :=
  Json.obj (omitStr "type" p.type ++ omitStr "domain" p.domain ++
    omitStr "function" p.function ++
    (if p.action.isEmpty then []
     else [("action", Strings.MarshalJSON p.action)]))

def marshalMandator (m : Mandator) : Json :=
  Json.obj (omitStr "organizationIdentifier" m.organizationIdentifier ++
    omitStr "organization" m.organization ++ omitStr "country" m.country ++
    omitStr "commonName" m.commonName ++
    omitStr "emailAddress" m.emailAddress ++
    omitStr "serialNumber" m.serialNumber)

def marshalMandatee (m : Mandatee) : Json :=
  Json.obj (omitStr "firstName" m.firstName ++
    omitStr "lastName" m.lastName ++
    omitStr "nationality" m.nationality ++ omitStr "email" m.email)

def marshalPayload (p : Payload) : Json :=
  Json.obj ([("mandator", marshalMandator p.mandator),
      ("mandatee", marshalMandatee p.mandatee)] ++
    (if p.power.isEmpty then []
     else [("power", Json.arr (p.power.map marshalPower))]))

def marshalBody (b : LEARIssuanceRequestBody) : Json :=
  Json.obj (omitStr "schema" b.schema ++
    omitStr "operation_mode" b.operationMode ++
    omitStr "format" b.format ++ omitStr "response_uri" b.responseUri ++
    [("payload", marshalPayload b.payload)])

/-- Decoding of a string-typed struct field: missing key = zero value,
non-string value = error. -/
def getStr (fields : List (String × Json)) (k : String) :
    Except String String :=
  match jlookup fields k with
  | none => .ok ""
  | some (Json.str s) => .ok s
  | some _ =>
    .error "json: cannot unmarshal value into Go value of type string"

def strOf : Json → Except String String
  | Json.str s => .ok s
  | _ => .error "json: cannot unmarshal value into Go value of type string"

/-- Element-wise decoding of a JSON array into `[]string`. -/
def mapMStr : List Json → Except String (List String)
  | [] => .ok []
  | j :: rest => do
    let s ← strOf j
    let ss ← mapMStr rest
    pure (s :: ss)

/-- Decoding of a `Strings`-typed field: no custom `UnmarshalJSON`
exists, so only a JSON array of strings is accepted. -/
def getStrings (fields : List (String × Json)) (k : String) :
    Except String (List String) :=
  match jlookup fields k with
  | none => .ok []
  | some (Json.arr l) => mapMStr l
  | some _ =>
    .error "json: cannot unmarshal value into Go value of type Strings"

def parsePower (j : Json) : Except String Power :=
  match j with
  | Json.obj fields => do
    let t ← getStr fields "type"
    let d ← getStr fields "domain"
    let f ← getStr fields "function"
    let a ← getStrings fields "action"
    pure ⟨t, d, f, a⟩
  | _ => .error "json: cannot unmarshal value into Go value of type Power"

def parseMandator (j : Json) : Except String Mandator :=
  match j with
  | Json.obj fields => do
    let oi ← getStr fields "organizationIdentifier"
    let org ← getStr fields "organization"
    let c ← getStr fields "country"
    let cn ← getStr fields "commonName"
    let em ← getStr fields "emailAddress"
    let sn ← getStr fields "serialNumber"
    pure ⟨oi, org, c, cn, em, sn⟩
  | _ =>
    .error "json: cannot unmarshal value into Go value of type Mandator"

/-- Element-wise decoding of a JSON array into `[]Power`. -/
def mapMPowers : List Json → Except String (List Power)
  | [] => .ok []
  | j :: rest => do
    let p ← parsePower j
    let ps ← mapMPowers rest
    pure (p :: ps)

def parseMandatee (j : Json) : Except String Mandatee :=
  match j with
  | Json.obj fields => do
    let fn ← getStr fields "firstName"
    let ln ← getStr fields "lastName"
    let na ← getStr fields "nationality"
    let em ← getStr fields "email"
    pure ⟨fn, ln, na, em⟩
  | _ =>
    .error "json: cannot unmarshal value into Go value of type Mandatee"

def parsePayload (j : Json) : Except String Payload :=
  match j with
  | Json.obj fields => do
    let m ← match jlookup fields "mandator" with
      | none => pure ({} : Mandator)
      | some jm => parseMandator jm
    let mt ← match jlookup fields "mandatee" with
      | none => pure ({} : Mandatee)
      | some jm => parseMandatee jm
    let pw ← match jlookup fields "power" with
      | none => pure ([] : List Power)
      | some (Json.arr l) => mapMPowers l
      | some _ =>
        .error "json: cannot unmarshal value into Go value of type []Power"
    pure ⟨m, mt, pw⟩
  | _ =>
    .error "json: cannot unmarshal value into Go value of type Payload"

/-- Embedding of `ParseLEARIssuanceRequestBody` (`json.Unmarshal` into
`LEARIssuanceRequestBody`), at the JSON-tree level. -/
def ParseLEARIssuanceRequestBody (j : Json) :
    Except String LEARIssuanceRequestBody :=
  match j with
  | Json.obj fields => do
    let s ← getStr fields "schema"
    let om ← getStr fields "operation_mode"
    let f ← getStr fields "format"
    let ru ← getStr fields "response_uri"
    let p ← match jlookup fields "payload" with
      | none => pure (⟨{}, {}, []⟩ : Payload)
      | some jp => parsePayload jp
    pure ⟨s, om, f, ru, p⟩
  | _ =>
    .error
      "json: cannot unmarshal value into Go value of type LEARIssuanceRequestBody"

/-- The first sample credential of the test fixtures (`Cred1`): its
single power has the one-element action list `["execute"]`. -/
def Cred1 : LEARIssuanceRequestBody :=
  { schema := "LEARCredentialEmployee"
    operationMode := "S"
    format := "jwt_vc_json"
    payload :=
      { mandator :=
          { organizationIdentifier := "VATES-123456"
            organization := "Test Organization"
            country := "ES"
            commonName := "Test User"
            emailAddress := "jesus@alastria.io" }
        mandatee :=
          { firstName := "Test"
            lastName := "User"
            nationality := "ES"
            email := "jesus@alastria.io" }
        power :=
          [{ type := "domain", domain := "DOME", function := "Onboarding"
             action := (["execute"] : List String) }] } }

/-- The second sample credential (`Cred2`): all mandator and mandatee
fields empty. -/
def Cred2 : LEARIssuanceRequestBody :=
  { schema := "LEARCredentialEmployee"
    operationMode := "S"
    format := "jwt_vc_json"
    payload :=
      { mandator := {}
        mandatee := {}
        power :=
          [{ type := "domain", domain := "DOME", function := "Onboarding"
             action := (["execute"] : List String) }] } }

/-! ## The register handler (`handlers.go`, `HandleRegister`)

`HandleRegister` is embedded as a pure function.  Randomness
(`generateRegistrationID`), clock reads (`time.Now()`) and the outcome of
every external call (database save, issuance request, welcome mail) are
oracle arguments; the calls the handler makes, with the exact argument
values, are recorded in an event trace in source order. -/

inductive Event where
  | saveRegistration (r : Registration)
  | issuanceCall (cred : LEARIssuanceRequestBody)
  | updateStatus (r : Registration)
  | sendIssuerError (r : Registration) (cred : LEARIssuanceRequestBody)
      (errText : String)
  | sendWelcome (r : Registration)
deriving Repr, DecidableEq

/-- The JSON envelope `APIResponse` together with the HTTP status code and
the trace of external calls the handler performed. -/
structure HandlerResult where
  status : Nat
  success : Bool
  message : String
  events : List Event
deriving Repr, DecidableEq

/-- The `LEARIssuanceRequestBody` literal built inside `HandleRegister`. -/
def buildCred (requestData : RegistrationRequest) : LEARIssuanceRequestBody :=
  { schema := "LEARCredentialEmployee"
    operationMode := "S"
    format := "jwt_vc_json"
    payload :=
      { mandator :=
          { organizationIdentifier :=
              requestData.country ++ "-" ++ requestData.vatId
            organization := requestData.companyName
            country := requestData.country
            commonName := requestData.firstName ++ " " ++ requestData.lastName
            emailAddress := requestData.email }
        mandatee :=
          { firstName := requestData.firstName
            lastName := requestData.lastName
            nationality := requestData.country
            email := requestData.email }
        power :=
          [{ type := "domain", domain := "DOME", function := "Onboarding"
             action := (["execute", "verify"] : List String) }] } }

/-- Embedding of `HandleRegister` (the `POST /api/register` handler).
Arguments after the request: `csrf` is whether the `X-Requested-With`
header is present, `regID` the value produced by
`generateRegistrationID()`, `saveResult` the error of
`DB.SaveRegistration` (`none` = success), `issuance` the outcome of
`Issuer.LEARIssuanceRequest`, `welcomeResult` the error of
`Mail.SendWelcomeEmail`, and `tIss`/`tMail` the two `time.Now()` reads.
The body is decoded before the handler runs (a malformed body, like a
wrong method, is rejected before any of the modelled logic). -/
def handleRegister (requestData : RegistrationRequest) (csrf : Bool)
    (regID : String) (saveResult : Option String)
    (issuance : Except String (List Nat)) (welcomeResult : Option String)
    (tIss tMail : Nat) : HandlerResult :=
  if ¬ csrf then
    ⟨403, false, "Security check failed: missing CSRF header", []⟩
  else if ¬ (requestData.website = "") then
    -- honeypot populated: report success, do nothing else
    ⟨200, true, "Registration successful", []⟩
  else
    match requestData.validate with
    | .error e => ⟨400, false, e, []⟩
    | .ok _ =>
      let cred := buildCred requestData
      let reg : Registration :=
        { registrationID := regID
          email := requestData.email
          firstName := requestData.firstName
          lastName := requestData.lastName
          companyName := requestData.companyName
          country := requestData.country
          vatID := requestData.vatId }
      match saveResult with
      | some _ =>
        ⟨500, false, "Failed to save registration",
          [.saveRegistration reg]⟩
      | none =>
        let reg := { reg with issuanceAt := tIss }
        match issuance with
        | .error issError =>
          let reg := { reg with issuanceError := issError }
          let regAfterMail :=
            match welcomeResult with
            | some mailErr => { reg with notifEmailError := mailErr }
            | none => { reg with notifEmailAt := tMail, notifEmailError := "" }
          ⟨200, true, "Registration successful",
            [.saveRegistration { reg with issuanceAt := 0, issuanceError := "" },
             .issuanceCall cred,
             .updateStatus reg,
             .sendIssuerError reg cred issError,
             .sendWelcome reg,
             .updateStatus regAfterMail]⟩
        | .ok _ =>
          let reg := { reg with issuanceError := "" }
          let regAfterMail :=
            match welcomeResult with
            | some mailErr => { reg with notifEmailError := mailErr }
            | none => { reg with notifEmailAt := tMail, notifEmailError := "" }
          ⟨200, true, "Registration successful",
            [.saveRegistration { reg with issuanceAt := 0 },
             .issuanceCall cred,
             .updateStatus reg,
             .sendWelcome reg,
             .updateStatus regAfterMail]⟩

/-! ## Verification gate (`handlers.go` and the refactored
`server.go`/`verification.go` variant shipped in the repository)

The repository carries two variants of the in-memory verification layer:
the one inlined in `HandleValidateEmail` / `HandleVerifyCode`
(`handlers.go`, `VerificationCodes : map[string]string`) and the
refactored methods `RegisterEmailAttempt` / `StoreVerificationCode` /
`VerifyCode` / `cleanupExpired` with a `VerificationCodeEntry` struct.
Both window limiters share the same logic (3 per 3 minutes, window reset
on strict elapse); both are embedded. -/

structure RateLimitEntry where
  count : Nat
  startTime : Nat
deriving Repr, DecidableEq

structure VerificationCodeEntry where
  code : String
  createdAt : Nat
deriving Repr, DecidableEq

/-- The shared mutable state touched by `HandleValidateEmail`
(`handlers.go` variant: codes are bare strings). -/
structure ServerState where
  emailRateLimiter : List (String × RateLimitEntry)
  verificationCodes : List (String × String)
deriving Repr, DecidableEq

structure ValidateEmailResult where
  status : Nat
  success : Bool
  message : String
  issuedCode : Option String
  state : ServerState
deriving Repr, DecidableEq

/-- Embedding of `HandleValidateEmail` (`handlers.go`): CSRF check,
email-format check, the inline per-email window limiter (3 requests per
3 minutes, window reset when more than 3 minutes have passed since the
window start), then code generation and storage.  `code` is the value
produced by `generateCode()`, `now` the current time in seconds. -/
def handleValidateEmail (st : ServerState) (csrf : Bool) (email : String)
    (now : Nat) (code : String) : ValidateEmailResult :=
  if ¬ csrf then
    ⟨403, false, "Security check failed: missing CSRF header", none, st⟩
  else if email = "" ∨ ¬ isValidEmail email then
    ⟨400, false, "A valid email is required", none, st⟩
  else
    let issue : ServerState → ValidateEmailResult := fun st1 =>
      ⟨200, true, "Validation code sent to your email", some code,
        { st1 with
          verificationCodes := mapSet st1.verificationCodes email code }⟩
    match mapGet st.emailRateLimiter email with
    | none =>
      issue { st with
        emailRateLimiter := mapSet st.emailRateLimiter email ⟨1, now⟩ }
    | some entry =>
      if 180 < now - entry.startTime then
        issue { st with
          emailRateLimiter := mapSet st.emailRateLimiter email ⟨1, now⟩ }
      else if 3 ≤ entry.count then
        ⟨429, false, "Too many requests. Please wait a few minutes.",
          none, st⟩
      else
        issue { st with
          emailRateLimiter :=
            mapSet st.emailRateLimiter email
              ⟨entry.count + 1, entry.startTime⟩ }

/-- State of the refactored server variant (codes carry a creation
time). -/
structure GateState where
  emailRateLimiter : List (String × RateLimitEntry)
  verificationCodes : List (String × VerificationCodeEntry)
deriving Repr, DecidableEq

/-- Embedding of `cleanupExpired`: drop rate-limit and code entries older
than 15 minutes (900 s). -/
def cleanupExpired (st : GateState) (now : Nat) : GateState :=
  { emailRateLimiter :=
      st.emailRateLimiter.filter
        (fun p => !(decide (900 < now - p.2.startTime)))
    verificationCodes :=
      st.verificationCodes.filter
        (fun p => !(decide (900 < now - p.2.createdAt))) }

/-- Embedding of `RegisterEmailAttempt`: sweep, then apply the window
limiter; returns whether the email may receive a code. -/
def registerEmailAttempt (st : GateState) (email : String) (now : Nat) :
    Bool × GateState :=
  let st := cleanupExpired st now
  match mapGet st.emailRateLimiter email with
  | none =>
    (true, { st with
      emailRateLimiter := mapSet st.emailRateLimiter email ⟨1, now⟩ })
  | some entry =>
    if 180 < now - entry.startTime then
      (true, { st with
        emailRateLimiter := mapSet st.emailRateLimiter email ⟨1, now⟩ })
    else if 3 ≤ entry.count then
      (false, st)
    else
      (true, { st with
        emailRateLimiter :=
          mapSet st.emailRateLimiter email
            ⟨entry.count + 1, entry.startTime⟩ })

/-- Embedding of `StoreVerificationCode`. -/
def storeVerificationCode (st : GateState) (email code : String)
    (now : Nat) : GateState :=
  { st with
    verificationCodes := mapSet st.verificationCodes email ⟨code, now⟩ }

/-- Embedding of `VerifyCode` (refactored variant): true and delete the
entry iff an entry exists for the email and its code matches exactly;
otherwise false and the map is untouched.  Returns (ok, new code map). -/
def verifyCode (codes : List (String × VerificationCodeEntry))
    (email code : String) :
    Bool × List (String × VerificationCodeEntry) :=
  match mapGet codes email with
  | none => (false, codes)
  | some entry =>
    if ¬ (entry.code = code) then (false, codes)
    else (true, mapDel codes email)

/-! ## Registration store (`internal/db`, `db.Service`)

The SQLite table (`NewService`) declares `registration_id`, `email` and
`vat_id` each `UNIQUE`; the table is embedded as a list of rows, an
`INSERT` fails when the new row collides with an existing row on any of
the three unique columns, and an `UPDATE` that touches a unique column
fails when the updated table violates uniqueness. -/

inductive RuntimeEnv where
  | development
  | preproduction
  | production
deriving Repr, DecidableEq

/-- Collision on any of the three `UNIQUE` columns. -/
def conflictsWith (q r : Registration) : Bool :=
  q.registrationID = r.registrationID || q.email = r.email ||
    q.vatID = r.vatID

/-- `INSERT INTO registrations ...`: fails on a unique-column conflict
with any existing row. -/
def insertRegistration (db : List Registration) (r : Registration) :
    Except String (List Registration) :=
  if db.any (fun q => conflictsWith q r) then
    .error "UNIQUE constraint failed"
  else
    .ok (db ++ [r])

/-- `GetRegistration(vatID, email)`: the first row matching both. -/
def getRegistration (db : List Registration) (vatID email : String) :
    Option Registration :=
  db.find? (fun q => decide (q.vatID = vatID) && decide (q.email = email))

/-- The row transformation of `AmendRegistration`'s `UPDATE`: rows
matching `(email, vat_id)` take the new registration id, name fields,
country, `updated_at` and the status columns; `email`, `vat_id` and
`created_at` are not in the `SET` list. -/
def amendUpdate (r q : Registration) : Registration :=
  if q.email = r.email ∧ q.vatID = r.vatID then
    { q with
      registrationID := r.registrationID
      firstName := r.firstName
      lastName := r.lastName
      companyName := r.companyName
      country := r.country
      updatedAt := r.updatedAt
      issuanceAt := r.issuanceAt
      issuanceError := r.issuanceError
      notifEmailAt := r.notifEmailAt
      notifEmailError := r.notifEmailError }
  else q

/-- Pairwise absence of unique-column collisions. -/
def noConflicts : List Registration → Bool
  | [] => true
  | q :: rest => (!rest.any (fun p => conflictsWith p q)) && noConflicts rest

/-- `AmendRegistration` (`UPDATE ... WHERE email = ? AND vat_id = ?`);
it rewrites `registration_id`, a unique column, so the result must still
satisfy the table constraints. -/
def amendRegistration (db : List Registration) (r : Registration) :
    Except String (List Registration) :=
  let newDb := db.map (amendUpdate r)
  if noConflicts newDb then .ok newDb else .error "UNIQUE constraint failed"

/-- Embedding of `Service.SaveRegistration`: stamp the record
(`CreatedAt = UpdatedAt = IssuanceAt = NotifEmailAt = now`, error fields
cleared), then in development/preproduction amend in place when a row
with the same `(vat_id, email)` exists and insert otherwise, and in
production always insert (conflicts are hard failures). -/
def saveRegistration (runtime : RuntimeEnv) (db : List Registration)
    (reg : Registration) (now : Nat) : Except String (List Registration) :=
  let reg := { reg with
    createdAt := now
    updatedAt := now
    issuanceAt := now
    notifEmailAt := now
    issuanceError := ""
    notifEmailError := "" }
  match runtime with
  | .development | .preproduction =>
    match getRegistration db reg.vatID reg.email with
    | some _ => amendRegistration db reg
    | none => insertRegistration db reg
  | .production => insertRegistration db reg

/-- Embedding of `UpdateRegistrationStatus`
(`UPDATE registrations SET updated_at, issuance_at, issuance_error,
notif_email_at, notif_email_error WHERE registration_id = ? AND
email = ?`); `now` is the `time.Now()` written into `reg.UpdatedAt`. -/
def updateRegistrationStatus (db : List Registration) (reg : Registration)
    (now : Nat) : List Registration :=
  db.map (fun q =>
    if q.registrationID = reg.registrationID ∧ q.email = reg.email then
      { q with
        updatedAt := now
        issuanceAt := reg.issuanceAt
        issuanceError := reg.issuanceError
        notifEmailAt := reg.notifEmailAt
        notifEmailError := reg.notifEmailError }
    else q)

deriving instance DecidableEq for Except

/-- A convenient concrete registration request (the end-to-end scenario
of the specification). -/
def reqAna : RegistrationRequest :=
  ⟨"Ana", "Ruiz", "Acme", "ES", "B12345678", "ana@example.com", ""⟩

/-! ## did:key derivation (`credissuance`, `NewLEARIssuance`)

`NewLEARIssuance` reads and parses the private key, obtains the
uncompressed public key (65 bytes, `0x04 ‖ X ‖ Y` with 32-byte
big-endian coordinates), compresses it (parity prefix `0x02`/`0x03`
over X, chosen by the last byte of Y, which carries Y's parity in
big-endian encoding), prepends the 2-byte P-256 multicodec varint
`0x80 0x24`, base58-encodes (Bitcoin alphabet, as the mr-tron library
used by the source) and prefixes `did:key:z`.  Scalar multiplication
itself is the crypto library's; the embedding starts from the
uncompressed public key bytes. -/

def base58Alphabet : List Char :=
  ['1', '2', '3', '4', '5', '6', '7', '8', '9', 'A', 'B', 'C', 'D', 'E',
   'F', 'G', 'H', 'J', 'K', 'L', 'M', 'N', 'P', 'Q', 'R', 'S', 'T', 'U',
   'V', 'W', 'X', 'Y', 'Z', 'a', 'b', 'c', 'd', 'e', 'f', 'g', 'h', 'i',
   'j', 'k', 'm', 'n', 'o', 'p', 'q', 'r', 's', 't', 'u', 'v', 'w', 'x',
   'y', 'z']

def base58Digit (n : Nat) : Char := base58Alphabet.getD n '1'

/-- Digits of `n` in base 58, most significant first; `fuel` bounds the
number of digits (any bound at least `log58 n + 1` gives the same
result). -/
def natToBase58 : Nat → Nat → List Char → List Char
  | 0, _, acc => acc
  | fuel + 1, n, acc =>
    if n = 0 then acc
    else natToBase58 fuel (n / 58) (base58Digit (n % 58) :: acc)

def bytesToNat (bs : List Nat) : Nat :=
  bs.foldl (fun acc b => acc * 256 + b) 0

/-- Base58 encoding of a big-endian byte string: one `'1'` per leading
zero byte, then the base-58 digits of the value.  `2 * length + 1` fuel
suffices since a value below `256^L` has at most `⌈1.366 L⌉` base-58
digits. -/
def base58Encode (bs : List Nat) : String :=
  let zeros := (bs.takeWhile (fun b => decide (b = 0))).length
  let n := bytesToNat bs
  String.mk (List.replicate zeros '1' ++
    natToBase58 (2 * bs.length + 1) n [])

/-- The did:key derivation inside `NewLEARIssuance`: X is bytes 1–32 of
the uncompressed key, the parity prefix is `0x03` when byte 64 (the last
byte of Y) is odd and `0x02` otherwise, and the encoded bytes are
`0x80 0x24 ‖ prefix ‖ X`. -/
def deriveDidKey (uncompressed : List Nat) : String :=
  let xBytes := (uncompressed.drop 1).take 32
  let yLastByte := uncompressed.getD 64 0
  let compressedPrefix : Nat := if ¬ (yLastByte % 2 = 0) then 3 else 2
  let compressedBytes := compressedPrefix :: xBytes
  "did:key:z" ++ base58Encode (128 :: 36 :: compressedBytes)

structure LEARIssuanceConfig where
  myDidkey : String
  verifierTokenEndpoint : String
  verifierURL : String
  credentialIssuancePath : String
deriving Repr, DecidableEq

structure LEARIssuanceClient where
  machineCredential : String
  verifierTokenEndpoint : String
  verifierURL : String
  myDidkey : String
  credentialIssuancePath : String
deriving Repr, DecidableEq

/-- Embedding of `NewLEARIssuance` from the point where the private key
has been parsed and the machine-credential file read: derive the
did:key from the uncompressed public key and refuse to construct the
client exactly when it differs from the configured `mydidkey`. -/
def NewLEARIssuance (uncompressed : List Nat) (machineCredential : String)
    (config : LEARIssuanceConfig) : Except String LEARIssuanceClient :=
  let didKey := deriveDidKey uncompressed
  if ¬ (didKey = config.myDidkey) then
    .error
      "the private key does not correspond to the did:key in the configuration"
  else
    .ok ⟨machineCredential, config.verifierTokenEndpoint,
      config.verifierURL, config.myDidkey, config.credentialIssuancePath⟩

/-! ## Issuance request transport handling (`credissuance`,
`LEARIssuance.LEARIssuanceRequest`)

The token exchange (`TokenRequest`) and the HTTP transport are external
calls; their outcomes are parameters.  Everything after them is the
function's own logic: non-2xx/3xx statuses become errors carrying the
HTTP status line, any other response body is returned verbatim. -/

structure HttpResponse where
  statusCode : Nat
  status : String
  body : List Nat
deriving Repr, DecidableEq

/-- Embedding of `LEARIssuanceRequest` after serialization:
`tokenResult` is the outcome of `TokenRequest`, `transport` the outcome
of `http.DefaultClient.Do`. -/
def LEARIssuanceRequest (tokenResult : Except String String)
    (transport : Except String HttpResponse) :
    Except String (List Nat) :=
  match tokenResult with
  | .error e => .error e
  | .ok _ =>
    match transport with
    | .error e => .error e
    | .ok resp =>
      if resp.statusCode < 200 || 399 < resp.statusCode then
        .error ("error calling LEAR Issuance Endpoint: " ++ resp.status)
      else
        .ok resp.body

/-! ## Theorems -/

/-! ### Association-list map lemmas -/

theorem mapGet_nil {β : Type} (k : String) :
    mapGet ([] : List (String × β)) k = none := rfl

theorem mapGet_cons_self {β : Type} (m : List (String × β)) (k : String)
    (v : β) : mapGet ((k, v) :: m) k = some v := by
  simp [mapGet, List.find?]

theorem mapGet_cons_ne {β : Type} (m : List (String × β)) {k k' : String}
    (v : β) (h : ¬ (k' = k)) :
    mapGet ((k, v) :: m) k' = mapGet m k' := by
  have h2 : ¬ (k = k') := fun hh => h hh.symm
  simp [mapGet, List.find?, h2]

theorem any_eq_false_of_get_none {β : Type} {m : List (String × β)}
    {k : String} (h : mapGet m k = none) :
    m.any (fun p => p.1 = k) = false := by
  induction m with
  | nil => rfl
  | cons p m ih =>
    rcases p with ⟨k0, v0⟩
    by_cases hk : k0 = k
    · subst hk
      rw [mapGet_cons_self] at h
      simp at h
    · have hk' : ¬ (k = k0) := fun hh => hk hh.symm
      rw [mapGet_cons_ne m v0 hk'] at h
      simp [hk, ih h]

theorem mapSet_of_get_none {β : Type} {m : List (String × β)} {k : String}
    (v : β) (h : mapGet m k = none) : mapSet m k v = (k, v) :: m := by
  simp [mapSet, any_eq_false_of_get_none h]

theorem map_id_of_get_none {β : Type} {m : List (String × β)} {k : String}
    (w : β) (h : mapGet m k = none) :
    (m.map (fun p => if p.1 = k then (k, w) else p)) = m := by
  induction m with
  | nil => rfl
  | cons p m ih =>
    rcases p with ⟨k0, v0⟩
    by_cases hk : k0 = k
    · subst hk
      rw [mapGet_cons_self] at h
      simp at h
    · have hk' : ¬ (k = k0) := fun hh => hk hh.symm
      rw [mapGet_cons_ne m v0 hk'] at h
      simp [hk, ih h]

theorem mapSet_cons_self {β : Type} {m : List (String × β)} {k : String}
    (v w : β) (h : mapGet m k = none) :
    mapSet ((k, v) :: m) k w = (k, w) :: m := by
  have hany : ((k, v) :: m).any (fun p => p.1 = k) = true := by simp
  simp only [mapSet, hany, if_true, List.map_cons, if_pos rfl]
  rw [map_id_of_get_none w h]

theorem mapDel_cons {β : Type} (m : List (String × β)) (k0 k : String)
    (v0 : β) :
    mapDel ((k0, v0) :: m) k =
      if k0 = k then mapDel m k else (k0, v0) :: mapDel m k := by
  by_cases hk : k0 = k <;> simp [mapDel, hk]

theorem mapGet_mapDel_self {β : Type} (m : List (String × β)) (k : String) :
    mapGet (mapDel m k) k = none := by
  induction m with
  | nil => rfl
  | cons p m ih =>
    rcases p with ⟨k0, v0⟩
    rw [mapDel_cons]
    by_cases hk : k0 = k
    · simpa [hk] using ih
    · have hk' : ¬ (k = k0) := fun hh => hk hh.symm
      rw [if_neg hk, mapGet_cons_ne (mapDel m k) v0 hk']
      exact ih

theorem mapGet_mapDel_none {β : Type} {m : List (String × β)} {k : String}
    (k' : String) (h : mapGet m k = none) :
    mapGet (mapDel m k') k = none := by
  induction m with
  | nil => rfl
  | cons p m ih =>
    rcases p with ⟨k0, v0⟩
    by_cases hk : k0 = k
    · subst hk
      rw [mapGet_cons_self] at h
      simp at h
    · have hk' : ¬ (k = k0) := fun hh => hk hh.symm
      rw [mapGet_cons_ne m v0 hk'] at h
      rw [mapDel_cons]
      by_cases hdel : k0 = k'
      · simpa [hdel] using ih h
      · rw [if_neg hdel, mapGet_cons_ne (mapDel m k') v0 hk']
        exact ih h

/-- C7: `VerifyCode(email, code)` returns true and deletes the stored
entry iff a live entry exists for the email whose code matches exactly;
in every other case it returns false and the map is unchanged; once an
entry has been consumed, every later `VerifyCode` for that email (which
never re-adds entries) returns false for any code. -/
theorem verifyCode_consume_iff_match
    (codes : List (String × VerificationCodeEntry)) (email code : String) :
    ((verifyCode codes email code).1 = true ↔
      ∃ e, mapGet codes email = some e ∧ e.code = code) ∧
    ((verifyCode codes email code).1 = true →
      (verifyCode codes email code).2 = mapDel codes email ∧
      mapGet (verifyCode codes email code).2 email = none) ∧
    ((verifyCode codes email code).1 = false →
      (verifyCode codes email code).2 = codes) ∧
    (∀ code2, (verifyCode codes email code).1 = true →
      (verifyCode (verifyCode codes email code).2 email code2).1 = false) ∧
    (∀ email2 code2, mapGet codes email = none →
      mapGet (verifyCode codes email2 code2).2 email = none) := by
  refine ⟨?_, ?_, ?_, ?_, ?_⟩
  · cases hget : mapGet codes email with
    | none => simp [verifyCode, hget]
    | some e =>
      by_cases hc : e.code = code
      · simp [verifyCode, hget, hc]
      · simp [verifyCode, hget, hc]
  · intro h
    cases hget : mapGet codes email with
    | none => rw [verifyCode, hget] at h; simp at h
    | some e =>
      by_cases hc : e.code = code
      · constructor
        · simp [verifyCode, hget, hc]
        · simp [verifyCode, hget, hc, mapGet_mapDel_self]
      · simp [verifyCode, hget, hc] at h
  · intro h
    cases hget : mapGet codes email with
    | none => simp [verifyCode, hget]
    | some e =>
      by_cases hc : e.code = code
      · simp [verifyCode, hget, hc] at h
      · simp [verifyCode, hget, hc]
  · intro code2 h
    cases hget : mapGet codes email with
    | none => rw [verifyCode, hget] at h; simp at h
    | some e =>
      by_cases hc : e.code = code
      · simp [verifyCode, hget, hc, mapGet_mapDel_self]
      · simp [verifyCode, hget, hc] at h
  · intro email2 code2 hnone
    cases hget2 : mapGet codes email2 with
    | none => simpa [verifyCode, hget2] using hnone
    | some e =>
      by_cases hc : e.code = code2
      · simp [verifyCode, hget2, hc, mapGet_mapDel_none _ hnone]
      · simpa [verifyCode, hget2, hc] using hnone

/-- Witness for C7 at a concrete input: the entry for `"a@b.co"` with
code `"123456"` verifies once, then can no longer be verified. -/
theorem verifyCode_consume_iff_match_witness :
    (verifyCode [("a@b.co", ⟨"123456", 0⟩)] "a@b.co" "123456").1 = true ∧
    (verifyCode
        ((verifyCode [("a@b.co", ⟨"123456", 0⟩)] "a@b.co" "123456").2)
        "a@b.co" "654321").1 = false :=
  ⟨(verifyCode_consume_iff_match [("a@b.co", ⟨"123456", 0⟩)] "a@b.co"
        "123456").1.mpr ⟨⟨"123456", 0⟩, by decide, rfl⟩,
    (verifyCode_consume_iff_match [("a@b.co", ⟨"123456", 0⟩)] "a@b.co"
        "123456").2.2.2.1 "654321"
      ((verifyCode_consume_iff_match [("a@b.co", ⟨"123456", 0⟩)] "a@b.co"
          "123456").1.mpr ⟨⟨"123456", 0⟩, by decide, rfl⟩)⟩

/-- C6: three code requests for an email within a 3-minute window all
succeed (HTTP 200, code stored), a 4th request within the window is
rejected with HTTP 429 with no code issued and the state untouched, and
a 4th request after the window has elapsed succeeds with the counter
reset to 1.  Shown for both the inline limiter in `HandleValidateEmail`
(any codes map `cs`) and the refactored `RegisterEmailAttempt`. -/
theorem validateEmail_rate_limit_window (st0 : ServerState)
    (email c1 c2 c3 c4 c5 : String) (t1 t2 t3 t4 t5 : Nat)
    (hnone : mapGet st0.emailRateLimiter email = none)
    (hne : ¬ (email = "")) (hemail : isValidEmail email = true)
    (h2 : t2 - t1 ≤ 180) (h3 : t3 - t1 ≤ 180) (h4 : t4 - t1 ≤ 180)
    (h5 : 180 < t5 - t1) :
    (handleValidateEmail st0 true email t1 c1 =
      ⟨200, true, "Validation code sent to your email", some c1,
        ⟨(email, ⟨1, t1⟩) :: st0.emailRateLimiter,
          mapSet st0.verificationCodes email c1⟩⟩) ∧
    (∀ cs, handleValidateEmail
        ⟨(email, ⟨1, t1⟩) :: st0.emailRateLimiter, cs⟩ true email t2 c2 =
      ⟨200, true, "Validation code sent to your email", some c2,
        ⟨(email, ⟨2, t1⟩) :: st0.emailRateLimiter,
          mapSet cs email c2⟩⟩) ∧
    (∀ cs, handleValidateEmail
        ⟨(email, ⟨2, t1⟩) :: st0.emailRateLimiter, cs⟩ true email t3 c3 =
      ⟨200, true, "Validation code sent to your email", some c3,
        ⟨(email, ⟨3, t1⟩) :: st0.emailRateLimiter,
          mapSet cs email c3⟩⟩) ∧
    (∀ cs, handleValidateEmail
        ⟨(email, ⟨3, t1⟩) :: st0.emailRateLimiter, cs⟩ true email t4 c4 =
      ⟨429, false, "Too many requests. Please wait a few minutes.", none,
        ⟨(email, ⟨3, t1⟩) :: st0.emailRateLimiter, cs⟩⟩) ∧
    (∀ cs, handleValidateEmail
        ⟨(email, ⟨3, t1⟩) :: st0.emailRateLimiter, cs⟩ true email t5 c5 =
      ⟨200, true, "Validation code sent to your email", some c5,
        ⟨(email, ⟨1, t5⟩) :: st0.emailRateLimiter,
          mapSet cs email c5⟩⟩) ∧
    (registerEmailAttempt ⟨[], []⟩ email t1 =
      (true, ⟨[(email, ⟨1, t1⟩)], []⟩)) ∧
    (registerEmailAttempt ⟨[(email, ⟨1, t1⟩)], []⟩ email t2 =
      (true, ⟨[(email, ⟨2, t1⟩)], []⟩)) ∧
    (registerEmailAttempt ⟨[(email, ⟨2, t1⟩)], []⟩ email t3 =
      (true, ⟨[(email, ⟨3, t1⟩)], []⟩)) ∧
    (registerEmailAttempt ⟨[(email, ⟨3, t1⟩)], []⟩ email t4 =
      (false, ⟨[(email, ⟨3, t1⟩)], []⟩)) ∧
    (registerEmailAttempt ⟨[(email, ⟨3, t1⟩)], []⟩ email t5 =
      (true, ⟨[(email, ⟨1, t5⟩)], []⟩)) := by
  have hw2 : ¬ (180 < t2 - t1) := by omega
  have hw3 : ¬ (180 < t3 - t1) := by omega
  have hw4 : ¬ (180 < t4 - t1) := by omega
  have hs2 : ¬ (900 < t2 - t1) := by omega
  have hs3 : ¬ (900 < t3 - t1) := by omega
  have hs4 : ¬ (900 < t4 - t1) := by omega
  refine ⟨?_, ?_, ?_, ?_, ?_, ?_, ?_, ?_, ?_, ?_⟩
  · simp [handleValidateEmail, hne, hemail, hnone, mapSet_of_get_none,
      hnone]
  · intro cs
    simp [handleValidateEmail, hne, hemail, mapGet_cons_self, hw2,
      mapSet_cons_self, hnone]
  · intro cs
    simp [handleValidateEmail, hne, hemail, mapGet_cons_self, hw3,
      mapSet_cons_self, hnone]
  · intro cs
    simp [handleValidateEmail, hne, hemail, mapGet_cons_self, hw4]
  · intro cs
    simp [handleValidateEmail, hne, hemail, mapGet_cons_self, h5,
      mapSet_cons_self, hnone]
  · simp [registerEmailAttempt, cleanupExpired, mapGet_nil, mapSet]
  · simp [registerEmailAttempt, cleanupExpired, hs2, mapGet_cons_self,
      hw2, mapSet]
  · simp [registerEmailAttempt, cleanupExpired, hs3, mapGet_cons_self,
      hw3, mapSet]
  · simp [registerEmailAttempt, cleanupExpired, hs4, mapGet_cons_self,
      hw4]
  · by_cases h900 : 900 < t5 - t1
    · simp [registerEmailAttempt, cleanupExpired, h900, mapGet_nil,
        mapSet]
    · simp [registerEmailAttempt, cleanupExpired, h900, mapGet_cons_self,
        h5, mapSet]

/-- Witness for C6: the 4th in-window request at `t = 180` is refused
with the state untouched, and a request at `t = 200` resets the
window. -/
theorem validateEmail_rate_limit_window_witness :
    (handleValidateEmail ⟨[("a@b.co", ⟨3, 0⟩)], []⟩ true "a@b.co" 180
        "000004" =
      ⟨429, false, "Too many requests. Please wait a few minutes.", none,
        ⟨[("a@b.co", ⟨3, 0⟩)], []⟩⟩) ∧
    (registerEmailAttempt ⟨[("a@b.co", ⟨3, 0⟩)], []⟩ "a@b.co" 200 =
      (true, ⟨[("a@b.co", ⟨1, 200⟩)], []⟩)) :=
  ⟨(validateEmail_rate_limit_window ⟨[], []⟩ "a@b.co" "000001" "000002"
        "000003" "000004" "000005" 0 60 120 180 200 rfl (by decide)
        (by decide) (by omega) (by omega) (by omega)
        (by omega)).2.2.2.1 [],
    (validateEmail_rate_limit_window ⟨[], []⟩ "a@b.co" "000001" "000002"
        "000003" "000004" "000005" 0 60 120 180 200 rfl (by decide)
        (by decide) (by omega) (by omega) (by omega)
        (by omega)).2.2.2.2.2.2.2.2.2⟩

/-- C1: for a registration request that passes validation (CSRF header
present, honeypot empty, `Validate` succeeds) whose initial
`SaveRegistration` succeeds, if `LEARIssuanceRequest` fails with error
`e`, then `HandleRegister` performs an `UpdateRegistrationStatus` call
whose record carries `e` in its `issuanceError` field, still attempts
`SendWelcomeEmail`, and still answers HTTP 200 with
`{success:true, message:"Registration successful"}`. -/
theorem handleRegister_issuance_failure_still_success
    (requestData : RegistrationRequest) (regID e : String)
    (welcomeResult : Option String) (tIss tMail : Nat)
    (hweb : requestData.website = "")
    (hval : requestData.validate = .ok ()) :
    (handleRegister requestData true regID none (.error e) welcomeResult
        tIss tMail).status = 200 ∧
    (handleRegister requestData true regID none (.error e) welcomeResult
        tIss tMail).success = true ∧
    (handleRegister requestData true regID none (.error e) welcomeResult
        tIss tMail).message = "Registration successful" ∧
    (∃ r, Event.updateStatus r ∈
        (handleRegister requestData true regID none (.error e) welcomeResult
          tIss tMail).events ∧ r.issuanceError = e) ∧
    (∃ r, Event.sendWelcome r ∈
        (handleRegister requestData true regID none (.error e) welcomeResult
          tIss tMail).events) := by
  refine ⟨by simp [handleRegister, hweb, hval],
    by simp [handleRegister, hweb, hval],
    by simp [handleRegister, hweb, hval], ?_, ?_⟩
  · exact ⟨⟨regID, requestData.email, requestData.firstName,
        requestData.lastName, requestData.companyName, requestData.country,
        requestData.vatId, 0, 0, tIss, e, 0, ""⟩,
      by simp [handleRegister, hweb, hval], rfl⟩
  · exact ⟨⟨regID, requestData.email, requestData.firstName,
        requestData.lastName, requestData.companyName, requestData.country,
        requestData.vatId, 0, 0, tIss, e, 0, ""⟩,
      by simp [handleRegister, hweb, hval]⟩

/-- Witness for C1 at a concrete input: the Ana Ruiz request with a
failed issuance call (`"boom"`). -/
theorem handleRegister_issuance_failure_still_success_witness :
    (handleRegister reqAna true "20251011-00000001" none (.error "boom")
        none 5 6).status = 200 ∧
    (handleRegister reqAna true "20251011-00000001" none (.error "boom")
        none 5 6).success = true ∧
    (handleRegister reqAna true "20251011-00000001" none (.error "boom")
        none 5 6).message = "Registration successful" ∧
    (∃ r, Event.updateStatus r ∈
        (handleRegister reqAna true "20251011-00000001" none (.error "boom")
          none 5 6).events ∧ r.issuanceError = "boom") ∧
    (∃ r, Event.sendWelcome r ∈
        (handleRegister reqAna true "20251011-00000001" none (.error "boom")
          none 5 6).events) :=
  handleRegister_issuance_failure_still_success reqAna "20251011-00000001"
    "boom" none 5 6 rfl (by decide)

/-- C2: a registration request whose honeypot field `website` is
non-empty gets the exact legitimate success response (HTTP 200,
`{success:true, message:"Registration successful"}`) and produces an
empty event trace: no save, no issuance call, no notification. -/
theorem handleRegister_honeypot_silent_success
    (requestData : RegistrationRequest) (regID : String)
    (saveResult : Option String) (issuance : Except String (List Nat))
    (welcomeResult : Option String) (tIss tMail : Nat)
    (hweb : requestData.website ≠ "") :
    handleRegister requestData true regID saveResult issuance welcomeResult
        tIss tMail =
      ⟨200, true, "Registration successful", []⟩ := by
  simp [handleRegister, hweb]

/-- Witness for C2 at a concrete input: the Ana Ruiz request with
`website = "http://bot.example"`. -/
theorem handleRegister_honeypot_silent_success_witness :
    handleRegister
        ⟨"Ana", "Ruiz", "Acme", "ES", "B12345678", "ana@example.com",
          "http://bot.example"⟩ true "20251011-00000001" none
        (.ok []) none 5 6 =
      ⟨200, true, "Registration successful", []⟩ :=
  handleRegister_honeypot_silent_success _ _ _ _ _ _ _ (by decide)

/-- C3: in a non-production environment, saving a second registration
with the same email and vat id (but, e.g., different names) amends the
single stored row in place: exactly one row remains, carrying the second
registration's identity fields and the original `created_at`.  In
production, a second save conflicting on email, vat id or registration
id fails (the store is not modified — the erroring insert returns no new
table). -/
theorem saveRegistration_conflict_policy (env : RuntimeEnv)
    (r1 r2 : Registration) (t1 t2 : Nat)
    (henv : ¬ (env = RuntimeEnv.production))
    (hemail : r2.email = r1.email) (hvat : r2.vatID = r1.vatID) :
    (saveRegistration env [] r1 t1 =
      .ok [{ r1 with
        createdAt := t1
        updatedAt := t1
        issuanceAt := t1
        notifEmailAt := t1
        issuanceError := ""
        notifEmailError := "" }]) ∧
    (saveRegistration env
        [{ r1 with
          createdAt := t1
          updatedAt := t1
          issuanceAt := t1
          notifEmailAt := t1
          issuanceError := ""
          notifEmailError := "" }]
        r2 t2 =
      .ok [⟨r2.registrationID, r1.email, r2.firstName, r2.lastName,
        r2.companyName, r2.country, r1.vatID, t1, t2, t2, "", t2, ""⟩]) ∧
    (saveRegistration RuntimeEnv.production [] r1 t1 =
      .ok [{ r1 with
        createdAt := t1
        updatedAt := t1
        issuanceAt := t1
        notifEmailAt := t1
        issuanceError := ""
        notifEmailError := "" }]) ∧
    (∀ (r3 : Registration) (t3 : Nat),
      r3.email = r1.email ∨ r3.vatID = r1.vatID ∨
        r3.registrationID = r1.registrationID →
      saveRegistration RuntimeEnv.production
          [{ r1 with
            createdAt := t1
            updatedAt := t1
            issuanceAt := t1
            notifEmailAt := t1
            issuanceError := ""
            notifEmailError := "" }]
          r3 t3 =
        .error "UNIQUE constraint failed") := by
  refine ⟨?_, ?_, ?_, ?_⟩
  · cases env with
    | production => exact absurd rfl henv
    | development =>
      simp [saveRegistration, getRegistration, insertRegistration]
    | preproduction =>
      simp [saveRegistration, getRegistration, insertRegistration]
  · cases env with
    | production => exact absurd rfl henv
    | development =>
      simp [saveRegistration, getRegistration, List.find?, hemail, hvat,
        amendRegistration, amendUpdate, noConflicts]
    | preproduction =>
      simp [saveRegistration, getRegistration, List.find?, hemail, hvat,
        amendRegistration, amendUpdate, noConflicts]
  · simp [saveRegistration, insertRegistration]
  · intro r3 t3 hconf
    rcases hconf with hc | hc | hc <;>
      simp [saveRegistration, insertRegistration, conflictsWith, hc]

/-- Witness for C3: the Ana record saved twice (name change on the
second save) in development, and the conflicting second insert in
production. -/
theorem saveRegistration_conflict_policy_witness :
    (saveRegistration RuntimeEnv.development []
        ⟨"20251011-00000001", "ana@example.com", "Ana", "Ruiz", "Acme",
          "ES", "B12345678", 0, 0, 0, "", 0, ""⟩ 10 =
      .ok [⟨"20251011-00000001", "ana@example.com", "Ana", "Ruiz", "Acme",
        "ES", "B12345678", 10, 10, 10, "", 10, ""⟩]) ∧
    (saveRegistration RuntimeEnv.development
        [⟨"20251011-00000001", "ana@example.com", "Ana", "Ruiz", "Acme",
          "ES", "B12345678", 10, 10, 10, "", 10, ""⟩]
        ⟨"20251011-00000002", "ana@example.com", "Anna", "Ruiz Soler",
          "Acme", "ES", "B12345678", 0, 0, 0, "", 0, ""⟩ 20 =
      .ok [⟨"20251011-00000002", "ana@example.com", "Anna", "Ruiz Soler",
        "Acme", "ES", "B12345678", 10, 20, 20, "", 20, ""⟩]) ∧
    (saveRegistration RuntimeEnv.production
        [⟨"20251011-00000001", "ana@example.com", "Ana", "Ruiz", "Acme",
          "ES", "B12345678", 10, 10, 10, "", 10, ""⟩]
        ⟨"20251011-00000002", "ana@example.com", "Anna", "Ruiz Soler",
          "Acme", "ES", "B12345678", 0, 0, 0, "", 0, ""⟩ 20 =
      .error "UNIQUE constraint failed") := by
  have h := saveRegistration_conflict_policy RuntimeEnv.development
    ⟨"20251011-00000001", "ana@example.com", "Ana", "Ruiz", "Acme",
      "ES", "B12345678", 0, 0, 0, "", 0, ""⟩
    ⟨"20251011-00000002", "ana@example.com", "Anna", "Ruiz Soler",
      "Acme", "ES", "B12345678", 0, 0, 0, "", 0, ""⟩
    10 20 (by decide) rfl rfl
  exact ⟨h.1, h.2.1,
    h.2.2.2 ⟨"20251011-00000002", "ana@example.com", "Anna", "Ruiz Soler",
      "Acme", "ES", "B12345678", 0, 0, 0, "", 0, ""⟩ 20 (Or.inl rfl)⟩

/-- C10: `UpdateRegistrationStatus` preserves the number of rows; every
row keeps its identity columns (`registration_id`, `email`,
`first_name`, `last_name`, `company_name`, `country`, `vat_id`) and its
`created_at`; a row that does not match both keys is returned
unchanged; a row matching both keys gets exactly `updated_at`,
`issuance_at`, `issuance_error`, `notif_email_at` and
`notif_email_error` overwritten. -/
theorem updateRegistrationStatus_frame (db : List Registration)
    (reg : Registration) (now : Nat) :
    (updateRegistrationStatus db reg now).length = db.length ∧
    (∀ i (hi : i < db.length)
        (hi2 : i < (updateRegistrationStatus db reg now).length),
      ((updateRegistrationStatus db reg now).get
          ⟨i, hi2⟩).registrationID = (db.get ⟨i, hi⟩).registrationID ∧
      ((updateRegistrationStatus db reg now).get ⟨i, hi2⟩).email =
        (db.get ⟨i, hi⟩).email ∧
      ((updateRegistrationStatus db reg now).get ⟨i, hi2⟩).firstName =
        (db.get ⟨i, hi⟩).firstName ∧
      ((updateRegistrationStatus db reg now).get ⟨i, hi2⟩).lastName =
        (db.get ⟨i, hi⟩).lastName ∧
      ((updateRegistrationStatus db reg now).get ⟨i, hi2⟩).companyName =
        (db.get ⟨i, hi⟩).companyName ∧
      ((updateRegistrationStatus db reg now).get ⟨i, hi2⟩).country =
        (db.get ⟨i, hi⟩).country ∧
      ((updateRegistrationStatus db reg now).get ⟨i, hi2⟩).vatID =
        (db.get ⟨i, hi⟩).vatID ∧
      ((updateRegistrationStatus db reg now).get ⟨i, hi2⟩).createdAt =
        (db.get ⟨i, hi⟩).createdAt ∧
      (¬ ((db.get ⟨i, hi⟩).registrationID = reg.registrationID ∧
          (db.get ⟨i, hi⟩).email = reg.email) →
        (updateRegistrationStatus db reg now).get ⟨i, hi2⟩ =
          db.get ⟨i, hi⟩) ∧
      ((db.get ⟨i, hi⟩).registrationID = reg.registrationID ∧
          (db.get ⟨i, hi⟩).email = reg.email →
        (updateRegistrationStatus db reg now).get ⟨i, hi2⟩ =
          { db.get ⟨i, hi⟩ with
            updatedAt := now
            issuanceAt := reg.issuanceAt
            issuanceError := reg.issuanceError
            notifEmailAt := reg.notifEmailAt
            notifEmailError := reg.notifEmailError })) := by
  constructor
  · simp [updateRegistrationStatus]
  · intro i hi hi2
    simp only [updateRegistrationStatus, List.get_eq_getElem,
      List.getElem_map]
    by_cases hmatch : db[i].registrationID = reg.registrationID ∧
        db[i].email = reg.email
    · simp [hmatch]
    · simp [hmatch]

/-- Witness for C10: a two-row table where only the matching row's
status columns change. -/
theorem updateRegistrationStatus_frame_witness :
    (updateRegistrationStatus
        [⟨"r1", "a@b.co", "Ana", "Ruiz", "Acme", "ES", "V1", 1, 1, 1, "",
          1, ""⟩]
        ⟨"r1", "a@b.co", "", "", "", "", "", 0, 0, 9, "boom", 0, ""⟩
        7).length = 1 ∧
    (updateRegistrationStatus
        [⟨"r1", "a@b.co", "Ana", "Ruiz", "Acme", "ES", "V1", 1, 1, 1, "",
          1, ""⟩]
        ⟨"r1", "a@b.co", "", "", "", "", "", 0, 0, 9, "boom", 0, ""⟩
        7).get ⟨0, by decide⟩ =
      ⟨"r1", "a@b.co", "Ana", "Ruiz", "Acme", "ES", "V1", 1, 7, 9, "boom",
        0, ""⟩ := by
  have h := updateRegistrationStatus_frame
    [⟨"r1", "a@b.co", "Ana", "Ruiz", "Acme", "ES", "V1", 1, 1, 1, "", 1,
      ""⟩]
    ⟨"r1", "a@b.co", "", "", "", "", "", 0, 0, 9, "boom", 0, ""⟩ 7
  refine ⟨h.1, ?_⟩
  have h2 := (h.2 0 (by decide) (by decide)).2.2.2.2.2.2.2.2.2 ⟨rfl, rfl⟩
  exact h2.trans (by decide)

/-- C8: after a successful token exchange (and a completed HTTP
round-trip), `LEARIssuanceRequest` fails iff the Issuer's status code is
outside 200–399, the error carries the HTTP status line, and any status
in 200–399 returns the response body bytes verbatim. -/
theorem learIssuanceRequest_status_policy (tok : String)
    (resp : HttpResponse) :
    ((∃ e, LEARIssuanceRequest (.ok tok) (.ok resp) = .error e) ↔
      (resp.statusCode < 200 ∨ 399 < resp.statusCode)) ∧
    (resp.statusCode < 200 ∨ 399 < resp.statusCode →
      LEARIssuanceRequest (.ok tok) (.ok resp) =
        .error ("error calling LEAR Issuance Endpoint: " ++ resp.status)) ∧
    (200 ≤ resp.statusCode → resp.statusCode ≤ 399 →
      LEARIssuanceRequest (.ok tok) (.ok resp) = .ok resp.body) := by
  by_cases hbad : resp.statusCode < 200 ∨ 399 < resp.statusCode
  · refine ⟨⟨fun _ => hbad,
      fun _ => ⟨"error calling LEAR Issuance Endpoint: " ++ resp.status,
        by simp [LEARIssuanceRequest, hbad]⟩⟩,
      fun _ => by simp [LEARIssuanceRequest, hbad],
      fun h1 h2 => absurd hbad (by omega)⟩
  · refine ⟨⟨?_, fun hc => absurd hc hbad⟩, fun hc => absurd hc hbad,
      fun _ _ => ?_⟩
    · rintro ⟨e, he⟩
      rw [LEARIssuanceRequest] at he
      rw [if_neg (by simpa using hbad)] at he
      exact absurd he (by simp)
    · simp only [LEARIssuanceRequest]
      rw [if_neg (by simpa using hbad)]

/-- Witness for C8: a 500 response fails with the status line; a 200
response returns the body verbatim. -/
theorem learIssuanceRequest_status_policy_witness :
    LEARIssuanceRequest (.ok "token")
        (.ok ⟨500, "500 Internal Server Error", [123, 125]⟩) =
      .error
        "error calling LEAR Issuance Endpoint: 500 Internal Server Error" ∧
    LEARIssuanceRequest (.ok "token") (.ok ⟨200, "200 OK", [34, 99]⟩) =
      .ok [34, 99] :=
  ⟨(learIssuanceRequest_status_policy "token"
        ⟨500, "500 Internal Server Error", [123, 125]⟩).2.1
      (by norm_num),
    (learIssuanceRequest_status_policy "token"
        ⟨200, "200 OK", [34, 99]⟩).2.2 (by norm_num) (by norm_num)⟩

/-- C4: for an uncompressed P-256 public key `0x04 ‖ X ‖ Y` (32-byte
big-endian coordinates), the derived identifier is `did:key:z` followed
by the base58 encoding of the 2-byte curve tag `0x80 0x24` prepended to
the 33-byte compressed key (prefix `0x02` when Y is even — i.e. its
last big-endian byte is even — and `0x03` when odd, followed by X); the
derivation is a pure function of those bytes, and `NewLEARIssuance`
returns an error iff the derived identifier differs from the configured
expected identifier, constructing the client otherwise. -/
theorem deriveDidKey_spec (X Y : List Nat) (mc : String)
    (config : LEARIssuanceConfig) (hX : X.length = 32)
    (hY : Y.length = 32) :
    (deriveDidKey (4 :: (X ++ Y)) =
      "did:key:z" ++ base58Encode (128 :: 36 ::
        (if (Y.getLast?.getD 0) % 2 = 0 then 2 else 3) :: X)) ∧
    ((∃ e, NewLEARIssuance (4 :: (X ++ Y)) mc config = .error e) ↔
      ¬ (deriveDidKey (4 :: (X ++ Y)) = config.myDidkey)) ∧
    (deriveDidKey (4 :: (X ++ Y)) = config.myDidkey →
      NewLEARIssuance (4 :: (X ++ Y)) mc config =
        .ok ⟨mc, config.verifierTokenEndpoint, config.verifierURL,
          config.myDidkey, config.credentialIssuancePath⟩) := by
  refine ⟨?_, ?_, ?_⟩
  · have hx : (((4 : Nat) :: (X ++ Y)).drop 1).take 32 = X := by
      rw [List.drop_one, List.tail_cons, ← hX, List.take_left]
    have hy : ((4 : Nat) :: (X ++ Y)).getD 64 0 = Y.getLast?.getD 0 := by
      have h1 : ((4 : Nat) :: (X ++ Y)).getD 64 0 = (X ++ Y).getD 63 0 :=
        rfl
      rw [h1, List.getD_eq_getElem?_getD,
        List.getElem?_append_right (by omega), hX,
        List.getLast?_eq_getElem? Y, hY]
    simp only [deriveDidKey, hx, hy]
    by_cases hp : (Y.getLast?.getD 0) % 2 = 0
    · simp [hp]
    · simp [hp]
  · by_cases hmatch : deriveDidKey (4 :: (X ++ Y)) = config.myDidkey
    · simp [NewLEARIssuance, hmatch]
    · simp [NewLEARIssuance, hmatch]
  · intro hmatch
    simp [NewLEARIssuance, hmatch]

/-- Witness for C4 at a concrete key (X all `0x01`, Y ending in the odd
byte `0x07`): the derived identifier is the expected `did:key:zDnae…`
string, a matching configuration constructs the client, a mismatched
one is refused. -/
theorem deriveDidKey_spec_witness :
    (deriveDidKey
        (4 :: (List.replicate 32 1 ++ (List.replicate 31 0 ++ [7]))) =
      "did:key:zDnaehjCiGhYUhv3zUVvQzLyBXrba3TGJg4RExQq5Cxupfy7e") ∧
    (NewLEARIssuance
        (4 :: (List.replicate 32 1 ++ (List.replicate 31 0 ++ [7]))) "mc"
        ⟨"did:key:zDnaehjCiGhYUhv3zUVvQzLyBXrba3TGJg4RExQq5Cxupfy7e",
          "tok", "ver", "iss"⟩ =
      .ok ⟨"mc", "tok", "ver",
        "did:key:zDnaehjCiGhYUhv3zUVvQzLyBXrba3TGJg4RExQq5Cxupfy7e",
        "iss"⟩) ∧
    (∃ e, NewLEARIssuance
        (4 :: (List.replicate 32 1 ++ (List.replicate 31 0 ++ [7]))) "mc"
        ⟨"did:key:zDnaeother", "tok", "ver", "iss"⟩ = .error e) := by
  have h := deriveDidKey_spec (List.replicate 32 1)
    (List.replicate 31 0 ++ [7]) "mc"
    ⟨"did:key:zDnaehjCiGhYUhv3zUVvQzLyBXrba3TGJg4RExQq5Cxupfy7e",
      "tok", "ver", "iss"⟩ (by decide) (by decide)
  have h2 := deriveDidKey_spec (List.replicate 32 1)
    (List.replicate 31 0 ++ [7]) "mc"
    ⟨"did:key:zDnaeother", "tok", "ver", "iss"⟩ (by decide) (by decide)
  refine ⟨h.1.trans (by decide), h.2.2 (h.1.trans (by decide)), ?_⟩
  exact h2.2.1.mpr (fun hc => by
    have := (h2.1.symm.trans hc)
    exact absurd this (by decide))

/-! ### JSON round-trip helper lemmas -/

theorem except_bind_ok {ε α β : Type} (a : α) (f : α → Except ε β) :
    (do let x ← Except.ok a; f x) = f a := rfl

theorem except_bind_error {ε α β : Type} (e : ε) (f : α → Except ε β) :
    (do let x ← (Except.error e : Except ε α); f x) = Except.error e := rfl

theorem mapMStr_strs (a : List String) :
    mapMStr (a.map Json.str) = .ok a := by
  induction a with
  | nil => rfl
  | cons x rest ih =>
    simp [mapMStr, strOf, ih, except_bind_ok]

theorem parseMandator_marshalMandator (m : Mandator) :
    parseMandator (marshalMandator m) = .ok m := by
  obtain ⟨f1, f2, f3, f4, f5, f6⟩ := m
  by_cases h1 : f1 = "" <;>
  by_cases h2 : f2 = "" <;>
  by_cases h3 : f3 = "" <;>
  by_cases h4 : f4 = "" <;>
  by_cases h5 : f5 = "" <;>
  by_cases h6 : f6 = "" <;>
    simp [parseMandator, marshalMandator, omitStr, getStr, jlookup,
      except_bind_ok, h1, h2, h3, h4, h5, h6]

theorem parseMandatee_marshalMandatee (m : Mandatee) :
    parseMandatee (marshalMandatee m) = .ok m := by
  obtain ⟨f1, f2, f3, f4⟩ := m
  by_cases h1 : f1 = "" <;>
  by_cases h2 : f2 = "" <;>
  by_cases h3 : f3 = "" <;>
  by_cases h4 : f4 = "" <;>
    simp [parseMandatee, marshalMandatee, omitStr, getStr, jlookup,
      except_bind_ok, h1, h2, h3, h4]

theorem parsePower_marshalPower (p : Power)
    (h : ¬ (p.action.length = 1)) :
    parsePower (marshalPower p) = .ok p := by
  obtain ⟨f1, f2, f3, a⟩ := p
  simp only at h
  rcases a with _ | ⟨x, _ | ⟨y, rest⟩⟩
  · by_cases h1 : f1 = "" <;>
    by_cases h2 : f2 = "" <;>
    by_cases h3 : f3 = "" <;>
      simp [parsePower, marshalPower, omitStr, getStr, getStrings, jlookup,
        except_bind_ok, h1, h2, h3]
  · simp at h
  · by_cases h1 : f1 = "" <;>
    by_cases h2 : f2 = "" <;>
    by_cases h3 : f3 = "" <;>
      simp [parsePower, marshalPower, omitStr, getStr, getStrings, jlookup,
        except_bind_ok, h1, h2, h3, Strings.MarshalJSON, mapMStr, strOf,
        mapMStr_strs]

theorem mapMPowers_marshal (l : List Power)
    (h : ∀ p ∈ l, ¬ (p.action.length = 1)) :
    mapMPowers (l.map marshalPower) = .ok l := by
  induction l with
  | nil => rfl
  | cons p rest ih =>
    simp [mapMPowers, parsePower_marshalPower p (h p (by simp)),
      ih (fun q hq => h q (by simp [hq])), except_bind_ok]

theorem parsePayload_marshalPayload (p : Payload)
    (h : ∀ q ∈ p.power, ¬ (q.action.length = 1)) :
    parsePayload (marshalPayload p) = .ok p := by
  obtain ⟨m, mt, pw⟩ := p
  simp only at h
  by_cases hpw : pw.isEmpty
  · have hnil : pw = [] := by simpa [List.isEmpty_iff] using hpw
    subst hnil
    simp [parsePayload, marshalPayload, jlookup,
      parseMandator_marshalMandator, parseMandatee_marshalMandatee,
      except_bind_ok]
  · simp [parsePayload, marshalPayload, jlookup, hpw,
      parseMandator_marshalMandator, parseMandatee_marshalMandatee,
      mapMPowers_marshal pw h, except_bind_ok]

/-- C5 (amended): a single-element action list serializes as the bare
string and a two-or-more-element list as an array of strings; parsing
the array encoding recovers the original value — the full marshalled
request round-trips whenever no action list has exactly one element —
but the bare-string encoding produced for single-element lists is NOT
accepted back by `ParseLEARIssuanceRequestBody` (shown by the
counterexample), so the two encodings are not equivalent on read. -/
theorem strings_wire_encoding_amended (a : Strings) (x : String)
    (req : LEARIssuanceRequestBody)
    (hreq : ∀ p ∈ req.payload.power, ¬ (p.action.length = 1)) :
    (a = [x] → Strings.MarshalJSON a = Json.str x) ∧
    (2 ≤ a.length → Strings.MarshalJSON a = Json.arr (a.map Json.str)) ∧
    ParseLEARIssuanceRequestBody (marshalBody req) = .ok req := by
  refine ⟨?_, ?_, ?_⟩
  · intro ha
    simp [ha, Strings.MarshalJSON]
  · intro ha
    rcases a with _ | ⟨u, _ | ⟨v, rest⟩⟩
    · simp at ha
    · simp at ha
    · simp [Strings.MarshalJSON]
  · obtain ⟨s, om, f, ru, p⟩ := req
    simp only at hreq
    by_cases h1 : s = "" <;>
    by_cases h2 : om = "" <;>
    by_cases h3 : f = "" <;>
    by_cases h4 : ru = "" <;>
      simp [ParseLEARIssuanceRequestBody, marshalBody, omitStr, getStr,
        jlookup, except_bind_ok, h1, h2, h3, h4,
        parsePayload_marshalPayload p hreq]

/-- Witness for C5 (amended) at the concrete credential built by
`HandleRegister` from the Ana Ruiz request, whose single power has the
two-element action `["execute","verify"]`: it round-trips. -/
theorem strings_wire_encoding_amended_witness :
    (Strings.MarshalJSON (["execute"] : List String) =
      Json.str "execute") ∧
    (Strings.MarshalJSON (["execute", "verify"] : List String) =
      Json.arr [Json.str "execute", Json.str "verify"]) ∧
    ParseLEARIssuanceRequestBody (marshalBody (buildCred reqAna)) =
      .ok (buildCred reqAna) := by
  have h := strings_wire_encoding_amended (["execute"] : List String)
    "execute" (buildCred reqAna) (by decide)
  refine ⟨h.1 rfl, ?_, h.2.2⟩
  have h2 := strings_wire_encoding_amended
    (["execute", "verify"] : List String) "" (buildCred reqAna)
    (by decide)
  simpa using h2.2.1 (by decide)

/-- Counterexample for C5 as stated: the wire form of the fixture
credential `Cred1` (action `["execute"]`, serialized as the bare string
`"execute"`) is rejected by `ParseLEARIssuanceRequestBody` — parsing
the serialized form does not recover the original request, so the two
encodings are not equivalent on read for this parser. -/
theorem strings_wire_roundtrip_counterexample :
    ParseLEARIssuanceRequestBody (marshalBody Cred1) =
      .error "json: cannot unmarshal value into Go value of type Strings" ∧
    ¬ (ParseLEARIssuanceRequestBody (marshalBody Cred1) = .ok Cred1) := by
  constructor
  · decide
  · decide

/-! ### omitempty helper lemmas -/

theorem hasEmpty_obj_append (allowed : List String)
    (l1 l2 : List (String × Json)) :
    Json.hasEmptyKeyExcept allowed (.obj (l1 ++ l2)) =
      (Json.hasEmptyKeyExcept allowed (.obj l1) ||
        Json.hasEmptyKeyExcept allowed (.obj l2)) := by
  induction l1 with
  | nil => simp [Json.hasEmptyKeyExcept]
  | cons p rest ih =>
    rcases p with ⟨k, v⟩
    simp [Json.hasEmptyKeyExcept, ih, Bool.or_assoc]

theorem hasEmpty_omitStr (allowed : List String) (k v : String) :
    Json.hasEmptyKeyExcept allowed (.obj (omitStr k v)) = false := by
  by_cases hv : v = "" <;>
    simp [omitStr, hv, Json.hasEmptyKeyExcept, Json.isEmptyVal]

theorem hasEmpty_arr_strs (allowed : List String) (a : List String) :
    Json.hasEmptyKeyExcept allowed (.arr (a.map Json.str)) = false := by
  induction a with
  | nil => simp [Json.hasEmptyKeyExcept]
  | cons x rest ih => simp [Json.hasEmptyKeyExcept, ih]

theorem hasEmpty_marshalMandator (allowed : List String) (m : Mandator) :
    Json.hasEmptyKeyExcept allowed (marshalMandator m) = false := by
  simp [marshalMandator, hasEmpty_obj_append, hasEmpty_omitStr]

theorem hasEmpty_marshalMandatee (allowed : List String) (m : Mandatee) :
    Json.hasEmptyKeyExcept allowed (marshalMandatee m) = false := by
  simp [marshalMandatee, hasEmpty_obj_append, hasEmpty_omitStr]

theorem hasEmpty_marshalPower (allowed : List String) (p : Power)
    (h : ¬ (p.action = [""])) :
    Json.hasEmptyKeyExcept allowed (marshalPower p) = false := by
  obtain ⟨f1, f2, f3, a⟩ := p
  simp only at h
  rcases a with _ | ⟨x, _ | ⟨y, rest⟩⟩
  · simp [marshalPower, hasEmpty_obj_append, hasEmpty_omitStr,
      Json.hasEmptyKeyExcept]
  · have hx : ¬ (x = "") := fun hx => h (by rw [hx])
    simp [marshalPower, hasEmpty_obj_append, hasEmpty_omitStr,
      Strings.MarshalJSON, Json.hasEmptyKeyExcept, Json.isEmptyVal, hx]
  · simp [marshalPower, hasEmpty_obj_append, hasEmpty_omitStr,
      Strings.MarshalJSON, Json.hasEmptyKeyExcept, Json.isEmptyVal,
      hasEmpty_arr_strs]

theorem hasEmpty_powerArr (allowed : List String) (l : List Power)
    (h : ∀ p ∈ l, ¬ (p.action = [""])) :
    Json.hasEmptyKeyExcept allowed (.arr (l.map marshalPower)) = false := by
  induction l with
  | nil => simp [Json.hasEmptyKeyExcept]
  | cons p rest ih =>
    simp [Json.hasEmptyKeyExcept,
      hasEmpty_marshalPower allowed p (h p (by simp)),
      ih (fun q hq => h q (by simp [hq]))]

theorem hasEmpty_marshalPayload (p : Payload)
    (h : ∀ q ∈ p.power, ¬ (q.action = [""])) :
    Json.hasEmptyKeyExcept ["payload", "mandator", "mandatee"]
      (marshalPayload p) = false := by
  obtain ⟨m, mt, pw⟩ := p
  simp only at h
  by_cases hpw : pw.isEmpty
  · simp [marshalPayload, hpw, Json.hasEmptyKeyExcept,
      hasEmpty_marshalMandator, hasEmpty_marshalMandatee]
  · have hlen : (pw.map marshalPower).isEmpty = false := by
      rcases pw with _ | ⟨q, rest⟩
      · simp at hpw
      · simp
    simp [marshalPayload, hpw, Json.hasEmptyKeyExcept, Json.isEmptyVal,
      hasEmpty_marshalMandator, hasEmpty_marshalMandatee,
      hasEmpty_powerArr _ pw h, hlen]

/-- C9 (amended): every *leaf* field with an empty value is omitted from
the wire form — no key outside the container keys `payload`, `mandator`
and `mandatee` is bound to an empty string, empty list or empty object
anywhere in the serialized `CredentialIssuanceRequest` (provided no
power carries the degenerate action list `[""]`, which would serialize
as the bare empty string under the custom `Strings` marshaller).  The
container keys themselves are always present: the claim's "no key with
an empty value appears anywhere" fails on them (see the
counterexample). -/
theorem issuanceBody_omitempty_amended (b : LEARIssuanceRequestBody)
    (h : ∀ p ∈ b.payload.power, ¬ (p.action = [""])) :
    Json.hasEmptyKeyExcept ["payload", "mandator", "mandatee"]
      (marshalBody b) = false ∧
    (∃ fields, marshalBody b = Json.obj fields ∧
      jlookup fields "payload" = some (marshalPayload b.payload)) := by
  constructor
  · obtain ⟨s, om, f, ru, p⟩ := b
    simp only at h
    have hp := hasEmpty_marshalPayload p h
    simp [marshalBody, hasEmpty_obj_append, hasEmpty_omitStr,
      Json.hasEmptyKeyExcept, hp]
  · refine ⟨_, rfl, ?_⟩
    by_cases h1 : b.schema = "" <;>
    by_cases h2 : b.operationMode = "" <;>
    by_cases h3 : b.format = "" <;>
    by_cases h4 : b.responseUri = "" <;>
      simp [omitStr, jlookup, h1, h2, h3, h4]

/-- Witness for C9 (amended) at the fixture credential `Cred2` (all
mandator and mandatee fields empty, action `["execute"]`): no key
outside the container keys is bound to an empty value. -/
theorem issuanceBody_omitempty_amended_witness :
    Json.hasEmptyKeyExcept ["payload", "mandator", "mandatee"]
      (marshalBody Cred2) = false ∧
    (∃ fields, marshalBody Cred2 = Json.obj fields ∧
      jlookup fields "payload" = some (marshalPayload Cred2.payload)) :=
  issuanceBody_omitempty_amended Cred2 (by decide)

/-- Counterexample for C9 as stated: serializing the fixture credential
`Cred2` (whose mandator struct is entirely empty) produces a body in
which some key — `mandator`, bound to the empty object `{}` — carries an
empty value, so "no key with an empty value appears anywhere in the
JSON body" is false. -/
theorem issuanceBody_empty_key_counterexample :
    Json.hasEmptyKeyExcept [] (marshalBody Cred2) = true ∧
    (∃ fields, marshalPayload Cred2.payload = Json.obj fields ∧
      jlookup fields "mandator" = some (Json.obj [])) := by
  constructor
  · simp [Cred2, marshalBody, marshalPayload, marshalMandator,
      marshalMandatee, marshalPower, Strings.MarshalJSON, omitStr,
      Json.hasEmptyKeyExcept, Json.isEmptyVal]
  · refine ⟨_, rfl, ?_⟩
    simp [Cred2, marshalMandator, omitStr, jlookup]

end Onboarding
